import Mathlib

/- Verification development for the hoopi-pi-ng audio engine.

The C++ sources are shallowly embedded: float samples are modelled as real
numbers, machine counters as naturals reduced modulo the word size where the
source uses fixed-width integers, atomically read cells as plain record
fields (each block reads every cell exactly where the source loads it), and
buffers as lists or index functions.  External libraries (the NeuralAudio
model inference, the OS file system and clock, and the mt19937-seeded reverb
delay network) are modelled as parameters or abstract fields, never invoked
by any theorem below. -/

namespace HoopiPi

/- ===================== AudioRecorder (src/HoopiPi/AudioRecorder.h) ========

Constant from AudioRecorder.h line 260: 10 seconds of stereo audio at
48 kHz.  The writer thread is modelled only through the flags the
real-time-side code observes. -/

def RING_BUFFER_SIZE : ℕ := 960000

/-- State of HoopiPi::AudioRecorder.  The ring buffer array is an index
function; m_writerThread is reduced to a liveness flag; the steady-clock
start time is an abstract tick count. -/
structure AudioRecorderState where
  recordingsDir : String
  currentFilePath : String
  sampleRate : Int
  ringBuffer : ℕ → ℝ
  writePos : ℕ
  readPos : ℕ
  recording : Bool
  droppedFrames : ℕ
  writerThreadActive : Bool
  recordingStartTime : ℕ

/-- Interleaved write loop of pushAudioFrame (AudioRecorder.h lines 152-157):
for each frame, store the left then the right sample, advancing the write
position modulo RING_BUFFER_SIZE after each store. -/
def writeSamples : (ℕ → ℝ) → ℕ → (ℕ → ℝ) → (ℕ → ℝ) → ℕ → (ℕ → ℝ) × ℕ
  | buf, w, _, _, 0 => (buf, w)
  | buf, w, left, right, n + 1 =>
      let buf1 := Function.update buf w (left 0)
      let w1 := (w + 1) % RING_BUFFER_SIZE
      let buf2 := Function.update buf1 w1 (right 0)
      let w2 := (w1 + 1) % RING_BUFFER_SIZE
      writeSamples buf2 w2 (fun i => left (i + 1)) (fun i => right (i + 1)) n

/-- Available-space computation of pushAudioFrame (AudioRecorder.h lines
141-143).  For positions below RING_BUFFER_SIZE the size_t subtractions in
the source never underflow, so truncated Nat subtraction agrees with them. -/
def availableSpace (s : AudioRecorderState) : ℕ :=
  if s.readPos ≤ s.writePos then RING_BUFFER_SIZE - s.writePos + s.readPos - 1
  else s.readPos - s.writePos - 1

/-- AudioRecorder::pushAudioFrame (AudioRecorder.h lines 130-161).  The
dropped-frames counter is a uint64, hence the modulus. -/
def pushAudioFrame (s : AudioRecorderState) (left right : ℕ → ℝ)
    (numSamples : ℕ) : AudioRecorderState :=
  if s.recording = false then s
  else
    let required := numSamples * 2
    if availableSpace s < required then
      { s with droppedFrames := (s.droppedFrames + numSamples) % 2 ^ 64 }
    else
      let wr := writeSamples s.ringBuffer s.writePos left right numSamples
      { s with ringBuffer := wr.1, writePos := wr.2 }

/-- AudioRecorder::getDroppedFrames (AudioRecorder.h lines 166-168). -/
def getDroppedFrames (s : AudioRecorderState) : ℕ :=
  s.droppedFrames

/-- AudioRecorder::startRecording (AudioRecorder.h lines 46-85).  The
strftime-generated default file name and the steady-clock reading are
outside the model and passed in as autoName and now; spawning the writer
thread is recorded in the writerThreadActive flag.  Returns the produced
path (empty on error) together with the new state. -/
def startRecording (s : AudioRecorderState) (filename : String)
    (sampleRate : Int) (autoName : String) (now : ℕ) :
    String × AudioRecorderState :=
  if s.recording = true then ("", s)
  else
    let actualFilename :=
      if filename.isEmpty then autoName
      else if filename.length < 4 ∨ ¬ filename.endsWith ".wav" then
        filename ++ ".wav"
      else filename
    let path := s.recordingsDir ++ "/" ++ actualFilename
    (path,
      { s with
        currentFilePath := path
        sampleRate := sampleRate
        writePos := 0
        readPos := 0
        droppedFrames := 0
        recordingStartTime := now
        recording := true
        writerThreadActive := true })

/-- Number of unconsumed samples currently in the ring. -/
def usedSamples (s : AudioRecorderState) : ℕ :=
  (s.writePos + RING_BUFFER_SIZE - s.readPos) % RING_BUFFER_SIZE

/-- A concrete recorder state used by witnesses. -/
def sampleRecorderState : AudioRecorderState :=
  { recordingsDir := "./recordings"
    currentFilePath := "./recordings/take1.wav"
    sampleRate := 48000
    ringBuffer := fun _ => 0
    writePos := 10
    readPos := 4
    recording := true
    droppedFrames := 0
    writerThreadActive := true
    recordingStartTime := 5 }

lemma writeSamples_writePos (n : ℕ) (buf : ℕ → ℝ) (w : ℕ)
    (left right : ℕ → ℝ) (hw : w < RING_BUFFER_SIZE) :
    (writeSamples buf w left right n).2 = (w + 2 * n) % RING_BUFFER_SIZE := by
  induction n generalizing buf w left right with
  | zero =>
      simp [writeSamples, Nat.mod_eq_of_lt hw]
  | succ n ih =>
      have hpos : 0 < RING_BUFFER_SIZE := by
        norm_num [RING_BUFFER_SIZE]
      simp only [writeSamples]
      rw [ih _ _ _ _ (Nat.mod_lt _ hpos)]
      have h1 : ((w + 1) % RING_BUFFER_SIZE + 1) % RING_BUFFER_SIZE
          = (w + 2) % RING_BUFFER_SIZE := by
        rw [Nat.mod_add_mod]
      rw [h1, Nat.mod_add_mod]
      ring_nf

/-- C3: while recording, a push that does not fit increments the dropped
counter by the frame count and leaves the buffer and write position
untouched; the counter never decreases and only grows when space lacked. -/
theorem pushAudioFrame_drop_behavior (s : AudioRecorderState)
    (left right : ℕ → ℝ) (n : ℕ)
    (hrec : s.recording = true) (hno : s.droppedFrames + n < 2 ^ 64) :
    (availableSpace s < n * 2 →
      pushAudioFrame s left right n
        = { s with droppedFrames := s.droppedFrames + n })
    ∧ s.droppedFrames ≤ (pushAudioFrame s left right n).droppedFrames
    ∧ (s.droppedFrames < (pushAudioFrame s left right n).droppedFrames →
        availableSpace s < n * 2) := by
  have hmod : (s.droppedFrames + n) % 2 ^ 64 = s.droppedFrames + n :=
    Nat.mod_eq_of_lt hno
  by_cases hav : availableSpace s < n * 2
  · refine ⟨fun _ => ?_, ?_, fun _ => hav⟩
    · simp only [pushAudioFrame, hrec]
      simp [hav]
      omega
    · simp only [pushAudioFrame, hrec]
      simp [hav]
      omega
  · refine ⟨fun h => absurd h hav, ?_, fun h => ?_⟩
    · simp [pushAudioFrame, hrec, hav]
    · simp [pushAudioFrame, hrec, hav] at h

/-- Witness for C3 at a concrete overloaded push. -/
theorem pushAudioFrame_drop_behavior_witness :
    sampleRecorderState.recording = true
    ∧ sampleRecorderState.droppedFrames + 480000 < 2 ^ 64
    ∧ ((availableSpace sampleRecorderState < 480000 * 2 →
        pushAudioFrame sampleRecorderState (fun _ => 0) (fun _ => 0) 480000
          = { sampleRecorderState with
              droppedFrames := sampleRecorderState.droppedFrames + 480000 })
      ∧ sampleRecorderState.droppedFrames
          ≤ (pushAudioFrame sampleRecorderState (fun _ => 0) (fun _ => 0)
              480000).droppedFrames
      ∧ (sampleRecorderState.droppedFrames
          < (pushAudioFrame sampleRecorderState (fun _ => 0) (fun _ => 0)
              480000).droppedFrames →
          availableSpace sampleRecorderState < 480000 * 2)) :=
  ⟨rfl, by decide,
    pushAudioFrame_drop_behavior sampleRecorderState (fun _ => 0) (fun _ => 0)
      480000 rfl (by decide)⟩

/-- C2 counterexample: the backing array size is 960000, which is not a
power of two.  Every power of two below 2 ^ 64 divides 2 ^ 64, but
RING_BUFFER_SIZE does not. -/
theorem ringBufferSizeNotPowerOfTwo :
    RING_BUFFER_SIZE = 960000 ∧ RING_BUFFER_SIZE < 2 ^ 64
    ∧ ¬ RING_BUFFER_SIZE ∣ 2 ^ 64 := by
  refine ⟨rfl, by decide, ?_⟩
  decide

/-- C2 amended: the backing array has size 960000 (not a power of two); one
slot is always left free, so the space offered to the producer is exactly
RING_BUFFER_SIZE − 1 − used; a push that fits grows the unconsumed region by
the pushed samples, keeps it at most RING_BUFFER_SIZE − 1, and the positions
coincide exactly when the ring is empty, so full and empty never coincide. -/
theorem ring_capacity_invariant (s : AudioRecorderState)
    (left right : ℕ → ℝ) (n : ℕ)
    (hw : s.writePos < RING_BUFFER_SIZE) (hr : s.readPos < RING_BUFFER_SIZE)
    (hrec : s.recording = true) :
    availableSpace s = RING_BUFFER_SIZE - 1 - usedSamples s
    ∧ (n * 2 ≤ availableSpace s →
        usedSamples (pushAudioFrame s left right n) = usedSamples s + n * 2
        ∧ usedSamples (pushAudioFrame s left right n) ≤ RING_BUFFER_SIZE - 1
        ∧ ((pushAudioFrame s left right n).writePos
              = (pushAudioFrame s left right n).readPos
            ↔ usedSamples (pushAudioFrame s left right n) = 0)) := by
  have havail : availableSpace s = RING_BUFFER_SIZE - 1 - usedSamples s := by
    unfold availableSpace usedSamples RING_BUFFER_SIZE at *
    split <;> omega
  refine ⟨havail, fun hfit => ?_⟩
  have hnotlt : ¬ availableSpace s < n * 2 := not_lt.mpr hfit
  have hW : (pushAudioFrame s left right n).writePos
      = (s.writePos + 2 * n) % RING_BUFFER_SIZE := by
    simp [pushAudioFrame, hrec, hnotlt,
      writeSamples_writePos n s.ringBuffer s.writePos left right hw]
  have hR : (pushAudioFrame s left right n).readPos = s.readPos := by
    simp [pushAudioFrame, hrec, hnotlt]
  rw [havail] at hfit
  unfold usedSamples at *
  rw [hW, hR]
  unfold RING_BUFFER_SIZE at *
  refine ⟨?_, ?_, ?_⟩ <;> omega

/-- Witness for C2's amended theorem at a concrete in-bounds push. -/
theorem ring_capacity_invariant_witness :
    sampleRecorderState.writePos < RING_BUFFER_SIZE
    ∧ sampleRecorderState.readPos < RING_BUFFER_SIZE
    ∧ sampleRecorderState.recording = true
    ∧ (availableSpace sampleRecorderState
        = RING_BUFFER_SIZE - 1 - usedSamples sampleRecorderState
      ∧ (1 * 2 ≤ availableSpace sampleRecorderState →
          usedSamples (pushAudioFrame sampleRecorderState (fun _ => 0)
              (fun _ => 0) 1)
            = usedSamples sampleRecorderState + 1 * 2
          ∧ usedSamples (pushAudioFrame sampleRecorderState (fun _ => 0)
              (fun _ => 0) 1) ≤ RING_BUFFER_SIZE - 1
          ∧ ((pushAudioFrame sampleRecorderState (fun _ => 0) (fun _ => 0)
                1).writePos
              = (pushAudioFrame sampleRecorderState (fun _ => 0) (fun _ => 0)
                1).readPos
            ↔ usedSamples (pushAudioFrame sampleRecorderState (fun _ => 0)
                (fun _ => 0) 1) = 0))) :=
  ⟨by decide, by decide, rfl,
    ring_capacity_invariant sampleRecorderState (fun _ => 0) (fun _ => 0) 1
      (by decide) (by decide) rfl⟩

/-- C9: calling startRecording while a recording is active returns the empty
string and leaves the recorder state (path, positions, counter, start time,
writer-thread flag) exactly as it was. -/
theorem startRecording_while_active (s : AudioRecorderState)
    (filename : String) (sampleRate : Int) (autoName : String) (now : ℕ)
    (h : s.recording = true) :
    startRecording s filename sampleRate autoName now = ("", s) := by
  simp [startRecording, h]

/-- Witness for C9 on a concrete active recording. -/
theorem startRecording_while_active_witness :
    sampleRecorderState.recording = true
    ∧ startRecording sampleRecorderState "take2" 48000
        "recording-2026-10-11-120000.wav" 7 = ("", sampleRecorderState) :=
  ⟨rfl, startRecording_while_active sampleRecorderState "take2" 48000
    "recording-2026-10-11-120000.wav" 7 rfl⟩

/- ===================== BackingTrack (src/standalone/BackingTrack.cpp) ==== -/

/-- State of HoopiPi::BackingTrack: the pre-decoded, pre-resampled sample
vectors plus the atomic transport cells. -/
structure BackingTrackState where
  audioDataL : List ℝ
  audioDataR : List ℝ
  totalFrames : ℕ
  channels : Int
  trackSampleRate : Int
  playbackPosition : ℕ
  isPlaying : Bool
  loopEnabled : Bool
  volume : ℝ
  startFrame : ℕ
  stopFrame : ℕ
  filename : String

/-- Effective end position of fillBuffer (BackingTrack.cpp line 393): the
stop position when it lies strictly inside the track, otherwise the end of
the file. -/
def endFrameOf (s : BackingTrackState) : ℕ :=
  if 0 < s.stopFrame ∧ s.stopFrame < s.totalFrames then s.stopFrame
  else s.totalFrames

/-- Frame loop of BackingTrack::fillBuffer (BackingTrack.cpp lines 396-415).
Returns the final cursor, the playing flag, and the two output channels.
When the cursor has reached endF with looping off, playback stops, the
remainder is zero-filled and the cursor is parked at startF; with looping
on the cursor wraps to startF and the sample there is emitted in the same
iteration, exactly as in the source. -/
def fillGo (dataL dataR : List ℝ) (vol : ℝ) (loop : Bool) (startF endF : ℕ) :
    ℕ → ℕ → ℕ × Bool × List ℝ × List ℝ
  | pos, 0 => (pos, true, [], [])
  | pos, n + 1 =>
      if endF ≤ pos ∧ loop = false then
        (startF, false, List.replicate (n + 1) (0 : ℝ),
          List.replicate (n + 1) (0 : ℝ))
      else
        let p := if endF ≤ pos then startF else pos
        let r := fillGo dataL dataR vol loop startF endF (p + 1) n
        (r.1, r.2.1,
          dataL.getD p 0 * vol :: r.2.2.1,
          dataR.getD p 0 * vol :: r.2.2.2)

/-- BackingTrack::fillBuffer (BackingTrack.cpp lines 377-418). -/
def fillBuffer (s : BackingTrackState) (numFrames : ℕ) :
    BackingTrackState × List ℝ × List ℝ :=
  if s.isPlaying = false ∨ s.totalFrames = 0 then
    (s, List.replicate numFrames 0, List.replicate numFrames 0)
  else
    let r := fillGo s.audioDataL s.audioDataR s.volume s.loopEnabled
      s.startFrame (endFrameOf s) s.playbackPosition numFrames
    ({ s with playbackPosition := r.1, isPlaying := r.2.1 }, r.2.2.1, r.2.2.2)

/-- Modelled from the claim's words for C4: the playback end is the stop
frame whenever the stop cell is nonzero, and end-of-track exactly when the
stop cell is 0. -/
def claimEndFrame (s : BackingTrackState) : ℕ :=
  if s.stopFrame = 0 then s.totalFrames else s.stopFrame

/-- Modelled from the claim's words for C4: fillBuffer as the claim
describes it, identical to the source except for using claimEndFrame. -/
def fillBufferClaimed (s : BackingTrackState) (numFrames : ℕ) :
    BackingTrackState × List ℝ × List ℝ :=
  if s.isPlaying = false ∨ s.totalFrames = 0 then
    (s, List.replicate numFrames 0, List.replicate numFrames 0)
  else
    let r := fillGo s.audioDataL s.audioDataR s.volume s.loopEnabled
      s.startFrame (claimEndFrame s) s.playbackPosition numFrames
    ({ s with playbackPosition := r.1, isPlaying := r.2.1 }, r.2.2.1, r.2.2.2)

/-- A playing two-frame track whose stop cell (5) lies beyond the end of
the track. -/
def trackStopBeyondEnd : BackingTrackState :=
  { audioDataL := [1, 2]
    audioDataR := [3, 4]
    totalFrames := 2
    channels := 2
    trackSampleRate := 48000
    playbackPosition := 0
    isPlaying := true
    loopEnabled := false
    volume := 1
    startFrame := 0
    stopFrame := 5
    filename := "beyond.wav" }

/-- A playing three-frame looping track with the cursor inside the track. -/
def trackPlayState : BackingTrackState :=
  { audioDataL := [1, 2, 3]
    audioDataR := [4, 5, 6]
    totalFrames := 3
    channels := 2
    trackSampleRate := 48000
    playbackPosition := 1
    isPlaying := true
    loopEnabled := true
    volume := 1
    startFrame := 0
    stopFrame := 0
    filename := "play.wav" }

/-- C4 counterexample: with stopFrame = 5 beyond a 2-frame track, the code
stops playback at end-of-track although the cursor never reaches the stop
frame, while the player described by the claim keeps playing. -/
theorem fillBuffer_stop_rule_counterexample :
    (fillBuffer trackStopBeyondEnd 3).1.isPlaying = false
    ∧ (fillBufferClaimed trackStopBeyondEnd 3).1.isPlaying = true
    ∧ trackStopBeyondEnd.stopFrame = 5
    ∧ trackStopBeyondEnd.totalFrames = 2 := by
  refine ⟨?_, ?_, rfl, rfl⟩
  · rfl
  · rfl

/-- C4 amended: fillBuffer outputs silence when not playing or empty;
otherwise it emits the stored samples at the advancing cursor scaled by the
volume cell, and when the cursor reaches the effective end — the stop frame
if that is strictly inside the track, otherwise end-of-track — it wraps to
the start frame (loop on) or stops playback, parks the cursor at the start
frame and zero-fills the remainder (loop off). -/
theorem fillBuffer_behavior (s : BackingTrackState) (n : ℕ) :
    (s.isPlaying = false ∨ s.totalFrames = 0 →
      fillBuffer s n = (s, List.replicate n 0, List.replicate n 0))
    ∧ (s.isPlaying = true → s.totalFrames ≠ 0 →
        s.playbackPosition < endFrameOf s →
        fillBuffer s (n + 1)
          = ((fillBuffer
                { s with playbackPosition := s.playbackPosition + 1 } n).1,
             s.audioDataL.getD s.playbackPosition 0 * s.volume
               :: (fillBuffer
                { s with playbackPosition := s.playbackPosition + 1 } n).2.1,
             s.audioDataR.getD s.playbackPosition 0 * s.volume
               :: (fillBuffer
                { s with playbackPosition := s.playbackPosition + 1 } n).2.2))
    ∧ (s.isPlaying = true → s.totalFrames ≠ 0 →
        endFrameOf s ≤ s.playbackPosition → s.loopEnabled = true →
        fillBuffer s (n + 1)
          = fillBuffer { s with playbackPosition := s.startFrame } (n + 1))
    ∧ (s.isPlaying = true → s.totalFrames ≠ 0 →
        endFrameOf s ≤ s.playbackPosition → s.loopEnabled = false →
        fillBuffer s (n + 1)
          = ({ s with isPlaying := false, playbackPosition := s.startFrame },
             List.replicate (n + 1) 0, List.replicate (n + 1) 0)) := by
  refine ⟨fun h => ?_, fun hp ht hlt => ?_, fun hp ht hge hl => ?_,
    fun hp ht hge hl => ?_⟩
  · have : s.isPlaying = false ∨ s.totalFrames = 0 := h
    simp only [fillBuffer, if_pos this]
  · have hcond : ¬ (s.isPlaying = false ∨ s.totalFrames = 0) := by
      simp [hp, ht]
    have hnotend : ¬ (endFrameOf s ≤ s.playbackPosition ∧ s.loopEnabled = false) :=
      fun hc => absurd hc.1 (not_le.mpr hlt)
    simp only [fillBuffer, if_neg hcond, fillGo, if_neg hnotend,
      if_neg (not_le.mpr hlt)]
    rfl
  · have hcond : ¬ (s.isPlaying = false ∨ s.totalFrames = 0) := by
      simp [hp, ht]
    simp only [fillBuffer, if_neg hcond]
    have hgo : fillGo s.audioDataL s.audioDataR s.volume s.loopEnabled
        s.startFrame (endFrameOf s) s.playbackPosition (n + 1)
        = fillGo s.audioDataL s.audioDataR s.volume s.loopEnabled
          s.startFrame (endFrameOf s) s.startFrame (n + 1) := by
      have hne : ¬ (endFrameOf s ≤ s.playbackPosition ∧ s.loopEnabled = false) := by
        simp [hl]
      have hne2 : ¬ (endFrameOf s ≤ s.startFrame ∧ s.loopEnabled = false) := by
        simp [hl]
      simp only [fillGo, if_neg hne, if_neg hne2, if_pos hge, ite_self]
    simp only [hgo]
    rfl
  · have hcond : ¬ (s.isPlaying = false ∨ s.totalFrames = 0) := by
      simp [hp, ht]
    have hstop : endFrameOf s ≤ s.playbackPosition ∧ s.loopEnabled = false :=
      ⟨hge, hl⟩
    simp only [fillBuffer, if_neg hcond, fillGo, if_pos hstop]

/-- Witness for C4's amended theorem: one in-range frame read and one
end-of-track stop. -/
theorem fillBuffer_behavior_witness :
    (trackPlayState.isPlaying = true ∧ trackPlayState.totalFrames ≠ 0
      ∧ trackPlayState.playbackPosition < endFrameOf trackPlayState
      ∧ fillBuffer trackPlayState (1 + 1)
          = ((fillBuffer { trackPlayState with
                playbackPosition := trackPlayState.playbackPosition + 1 } 1).1,
             trackPlayState.audioDataL.getD trackPlayState.playbackPosition 0
                 * trackPlayState.volume
               :: (fillBuffer { trackPlayState with
                playbackPosition := trackPlayState.playbackPosition + 1 } 1).2.1,
             trackPlayState.audioDataR.getD trackPlayState.playbackPosition 0
                 * trackPlayState.volume
               :: (fillBuffer { trackPlayState with
                playbackPosition := trackPlayState.playbackPosition + 1 } 1).2.2))
    ∧ (trackStopBeyondEnd.isPlaying = true ∧ trackStopBeyondEnd.totalFrames ≠ 0
      ∧ endFrameOf trackStopBeyondEnd ≤ trackStopBeyondEnd.playbackPosition → True)
    ∧ (endFrameOf trackStopBeyondEnd ≤ 2
      ∧ fillBuffer { trackStopBeyondEnd with playbackPosition := 2 } (0 + 1)
          = ({ trackStopBeyondEnd with
                isPlaying := false
                playbackPosition := trackStopBeyondEnd.startFrame },
             List.replicate (0 + 1) 0, List.replicate (0 + 1) 0)) := by
  refine ⟨⟨rfl, by decide, by decide, ?_⟩, fun _ => trivial, by decide, ?_⟩
  · exact (fillBuffer_behavior trackPlayState 1).2.1 rfl (by decide) (by decide)
  · have h := (fillBuffer_behavior
      { trackStopBeyondEnd with playbackPosition := 2 } 0).2.2.2
      rfl (by decide) (by decide) rfl
    exact h

/- ===================== WAVWriter (src/HoopiPi/WAVWriter.h) ===============

The byte stream written through std::ofstream is modelled as a list of
byte values; multi-byte fields are little-endian, as produced by the raw
writes on the target platform. -/

/-- Little-endian byte pair of a 16-bit value. -/
def le16 (n : ℕ) : List ℕ :=
  [n % 256, n / 256 % 256]

/-- Little-endian byte quadruple of a 32-bit value. -/
def le32 (n : ℕ) : List ℕ :=
  [n % 256, n / 256 % 256, n / 65536 % 256, n / 16777216 % 256]

/-- Value of a little-endian byte quadruple. -/
def le32Val : List ℕ → ℕ
  | b0 :: b1 :: b2 :: b3 :: _ => b0 + 256 * b1 + 65536 * b2 + 16777216 * b3
  | _ => 0

/-- Truncation toward zero, the semantics of static_cast<int16_t> from a
float whose value fits the target type. -/
noncomputable def truncZ (x : ℝ) : ℤ :=
  if 0 ≤ x then ⌊x⌋ else ⌈x⌉

/-- Clamp to [-1, 1] (WAVWriter.h line 65). -/
noncomputable def clampUnit (x : ℝ) : ℝ :=
  max (-1) (min 1 x)

/-- Sample conversion of WAVWriter::write (WAVWriter.h lines 65-68): clamp,
scale by 32767, truncate to int16, emit as two little-endian bytes of the
two's-complement representation. -/
noncomputable def wavEncodeSample (x : ℝ) : List ℕ :=
  le16 ((truncZ (clampUnit x * 32767) % 65536).toNat)

/-- Signed value of a little-endian two's-complement byte pair. -/
def wavDecode16 : List ℕ → ℤ
  | b0 :: b1 :: _ =>
      let u := b0 + 256 * b1
      if u < 32768 then (u : ℤ) else (u : ℤ) - 65536
  | _ => 0

/-- State of HoopiPi::WAVWriter: the open flag and format fields plus the
byte content of the file written so far. -/
structure WAVWriterState where
  fileOpen : Bool
  sampleRate : ℕ
  numChannels : ℕ
  dataSize : ℕ
  fileBytes : List ℕ

/-- WAVWriter::writeHeader (WAVWriter.h lines 116-143): the 44-byte
RIFF/WAVE/fmt/data header.  All size fields are uint32 or uint16 in the
source, hence the moduli. -/
def wavHeader (sampleRate numChannels dataSize : ℕ) : List ℕ :=
  let bitsPerSample := 16
  let blockAlign := numChannels * (bitsPerSample / 8)
  let byteRate := sampleRate * blockAlign
  let chunkSize := (36 + dataSize) % 2 ^ 32
  [82, 73, 70, 70] ++ le32 chunkSize ++ [87, 65, 86, 69]
    ++ [102, 109, 116, 32] ++ le32 16
    ++ le16 1 ++ le16 (numChannels % 2 ^ 16) ++ le32 (sampleRate % 2 ^ 32)
    ++ le32 (byteRate % 2 ^ 32) ++ le16 (blockAlign % 2 ^ 16) ++ le16 16
    ++ [100, 97, 116, 97] ++ le32 (dataSize % 2 ^ 32)

/-- WAVWriter::open (WAVWriter.h lines 31-49) on a successfully opened
file: record the format and emit the placeholder header. -/
def wavOpen (sampleRate numChannels : ℕ) : WAVWriterState :=
  { fileOpen := true
    sampleRate := sampleRate
    numChannels := numChannels
    dataSize := 0
    fileBytes := wavHeader sampleRate numChannels 0 }

/-- WAVWriter::write (WAVWriter.h lines 56-72): append the converted
samples and grow the uint32 data-size accumulator. -/
noncomputable def wavWrite (s : WAVWriterState) (data : ℕ → ℝ)
    (numFrames : ℕ) : WAVWriterState :=
  if s.fileOpen = false then s
  else
    let totalSamples := numFrames * s.numChannels
    { s with
      fileBytes := s.fileBytes
        ++ (List.range totalSamples).flatMap (fun i => wavEncodeSample (data i))
      dataSize := (s.dataSize + totalSamples * 2) % 2 ^ 32 }

/-- WAVWriter::close (WAVWriter.h lines 77-88): seek to offset 0, rewrite
the header with the accumulated data length, close the file. -/
def wavClose (s : WAVWriterState) : WAVWriterState :=
  if s.fileOpen = false then s
  else
    { s with
      fileBytes := wavHeader s.sampleRate s.numChannels s.dataSize
        ++ s.fileBytes.drop 44
      fileOpen := false
      dataSize := 0 }

/-- A whole recording: a sequence of write calls. -/
noncomputable def wavWriteAll (s : WAVWriterState)
    (blocks : List ((ℕ → ℝ) × ℕ)) : WAVWriterState :=
  blocks.foldl (fun t b => wavWrite t b.1 b.2) s

/-- The PCM byte stream produced by a sequence of write calls. -/
noncomputable def wavPCMBytes (ch : ℕ) (blocks : List ((ℕ → ℝ) × ℕ)) :
    List ℕ :=
  blocks.flatMap (fun b =>
    (List.range (b.2 * ch)).flatMap (fun i => wavEncodeSample (b.1 i)))

/-- Total number of PCM data bytes of a sequence of write calls. -/
def totalDataBytes (ch : ℕ) (blocks : List ((ℕ → ℝ) × ℕ)) : ℕ :=
  (blocks.map (fun b => b.2 * ch * 2)).sum

lemma wavHeader_length (sampleRate numChannels dataSize : ℕ) :
    (wavHeader sampleRate numChannels dataSize).length = 44 := by
  simp [wavHeader, le16, le32]

lemma wavEncodeSample_length (x : ℝ) : (wavEncodeSample x).length = 2 := by
  simp [wavEncodeSample, le16]

lemma range_encode_length (f : ℕ → ℝ) (m : ℕ) :
    ((List.range m).flatMap (fun i => wavEncodeSample (f i))).length = m * 2 := by
  induction m with
  | zero => simp
  | succ k ih =>
      rw [List.range_succ]
      simp [ih, wavEncodeSample_length]
      ring

lemma wavPCMBytes_length (ch : ℕ) (blocks : List ((ℕ → ℝ) × ℕ)) :
    (wavPCMBytes ch blocks).length = totalDataBytes ch blocks := by
  induction blocks with
  | nil => simp [wavPCMBytes, totalDataBytes]
  | cons b tl ih =>
      simp only [wavPCMBytes, totalDataBytes, List.flatMap_cons, List.map_cons,
        List.sum_cons, List.length_append]
      rw [range_encode_length]
      have ih2 := ih
      simp only [wavPCMBytes, totalDataBytes] at ih2
      rw [ih2]

lemma wavWriteAll_spec (blocks : List ((ℕ → ℝ) × ℕ)) (s : WAVWriterState)
    (hopen : s.fileOpen = true) (hsize : s.dataSize < 2 ^ 32) :
    wavWriteAll s blocks
      = { fileOpen := true
          sampleRate := s.sampleRate
          numChannels := s.numChannels
          dataSize := (s.dataSize + totalDataBytes s.numChannels blocks) % 2 ^ 32
          fileBytes := s.fileBytes ++ wavPCMBytes s.numChannels blocks } := by
  induction blocks generalizing s with
  | nil =>
      simp only [wavWriteAll, List.foldl_nil, totalDataBytes, List.map_nil,
        List.sum_nil, Nat.add_zero, wavPCMBytes, List.flatMap_nil,
        List.append_nil, Nat.mod_eq_of_lt hsize]
      cases s
      simp_all
  | cons b tl ih =>
      have hne : ¬ s.fileOpen = false := by simp [hopen]
      have hwr : wavWrite s b.1 b.2
          = { fileOpen := s.fileOpen
              sampleRate := s.sampleRate
              numChannels := s.numChannels
              dataSize := (s.dataSize + b.2 * s.numChannels * 2) % 2 ^ 32
              fileBytes := s.fileBytes
                ++ (List.range (b.2 * s.numChannels)).flatMap
                  (fun i => wavEncodeSample (b.1 i)) } := by
        simp only [wavWrite, if_neg hne]
      have hopen2 : (wavWrite s b.1 b.2).fileOpen = true := by
        rw [hwr]
        exact hopen
      have hsize2 : (wavWrite s b.1 b.2).dataSize < 2 ^ 32 := by
        rw [hwr]
        exact Nat.mod_lt _ (by norm_num)
      have step : wavWriteAll s (b :: tl)
          = wavWriteAll (wavWrite s b.1 b.2) tl := by
        simp [wavWriteAll]
      rw [step, ih _ hopen2 hsize2, hwr]
      simp only [WAVWriterState.mk.injEq, hopen, true_and,
        totalDataBytes, List.map_cons, List.sum_cons,
        wavPCMBytes, List.flatMap_cons, List.append_assoc]
      exact ⟨by omega, trivial⟩

lemma le32Val_le32 (n : ℕ) : le32Val (le32 n) = n % 2 ^ 32 := by
  simp only [le32, le32Val]
  omega

lemma truncZ_bounds (x : ℝ) :
    -32767 ≤ truncZ (clampUnit x * 32767) ∧ truncZ (clampUnit x * 32767) ≤ 32767 := by
  have hlo : (-1 : ℝ) ≤ clampUnit x := le_max_left _ _
  have hhi : clampUnit x ≤ 1 := by
    apply max_le
    · norm_num
    · exact min_le_left _ _
  have hmlo : (-32767 : ℝ) ≤ clampUnit x * 32767 := by nlinarith
  have hmhi : clampUnit x * 32767 ≤ 32767 := by nlinarith
  unfold truncZ
  split
  case isTrue h =>
    constructor
    · have : (0 : ℤ) ≤ ⌊clampUnit x * 32767⌋ := by
        exact Int.le_floor.mpr (by exact_mod_cast h)
      omega
    · have : ⌊clampUnit x * 32767⌋ ≤ ⌊(32767 : ℝ)⌋ := Int.floor_le_floor hmhi
      simpa using this
  case isFalse h =>
    constructor
    · have hle : (-32767 : ℝ) ≤ (⌈clampUnit x * 32767⌉ : ℝ) :=
        le_trans hmlo (Int.le_ceil _)
      exact_mod_cast hle
    · have : ⌈clampUnit x * 32767⌉ ≤ 0 := by
        rw [Int.ceil_le]
        push_cast
        linarith [not_le.mp h]
      omega

lemma wavDecode_encode (x : ℝ) :
    wavDecode16 (wavEncodeSample x) = truncZ (clampUnit x * 32767) := by
  obtain ⟨h1, h2⟩ := truncZ_bounds x
  set t := truncZ (clampUnit x * 32767) with ht
  have hmodnn : (0 : ℤ) ≤ t % 65536 := Int.emod_nonneg t (by norm_num)
  have hmodlt : t % 65536 < 65536 := Int.emod_lt_of_pos t (by norm_num)
  have hu : ((t % 65536).toNat : ℤ) = t % 65536 := Int.toNat_of_nonneg hmodnn
  set u := (t % 65536).toNat with hud
  have husmall : u < 65536 := by omega
  have hsplit : u % 256 + 256 * (u / 256 % 256) = u := by omega
  simp only [wavEncodeSample, le16, wavDecode16, ← hud, hsplit]
  split
  case isTrue hlt => omega
  case isFalse hge => omega

/-- C5: a recording produced by open(PCM-16 stereo), a sequence of writes
and close is the finalized header followed by the converted PCM bytes; the
RIFF size field encodes exactly 36 + data bytes, the data size field
exactly the data bytes; and every sample is stored as the int16 truncation
of its clamp to [-1,1] scaled by 32767, in little-endian order. -/
theorem wav_recording_header_exact (sr : ℕ) (blocks : List ((ℕ → ℝ) × ℕ))
    (h : 36 + totalDataBytes 2 blocks < 2 ^ 32) :
    wavClose (wavWriteAll (wavOpen sr 2) blocks)
      = { fileOpen := false
          sampleRate := sr
          numChannels := 2
          dataSize := 0
          fileBytes := wavHeader sr 2 (totalDataBytes 2 blocks)
            ++ wavPCMBytes 2 blocks }
    ∧ (wavPCMBytes 2 blocks).length = totalDataBytes 2 blocks
    ∧ le32Val (le32 ((36 + totalDataBytes 2 blocks) % 2 ^ 32))
        = 36 + totalDataBytes 2 blocks
    ∧ le32Val (le32 (totalDataBytes 2 blocks % 2 ^ 32))
        = totalDataBytes 2 blocks
    ∧ ∀ x : ℝ, wavDecode16 (wavEncodeSample x) = truncZ (clampUnit x * 32767) := by
  have hall := wavWriteAll_spec blocks (wavOpen sr 2) rfl (by norm_num [wavOpen])
  have hdsz : totalDataBytes 2 blocks % 2 ^ 32 = totalDataBytes 2 blocks :=
    Nat.mod_eq_of_lt (by omega)
  refine ⟨?_, wavPCMBytes_length 2 blocks, ?_, ?_, wavDecode_encode⟩
  · rw [hall]
    simp only [wavOpen, wavClose, Nat.zero_add, if_neg (by simp : ¬ (true = false))]
    rw [hdsz, ← wavHeader_length sr 2 0, List.drop_left]
  · rw [le32Val_le32]
    omega
  · rw [le32Val_le32]
    omega

/-- Witness for C5 on a one-frame recording of a half-scale sample. -/
theorem wav_recording_header_exact_witness :
    36 + totalDataBytes 2 [((fun _ => (0 : ℝ)), 1)] < 2 ^ 32
    ∧ (wavClose (wavWriteAll (wavOpen 48000 2) [((fun _ => (0 : ℝ)), 1)])
        = { fileOpen := false
            sampleRate := 48000
            numChannels := 2
            dataSize := 0
            fileBytes := wavHeader 48000 2
                (totalDataBytes 2 [((fun _ => (0 : ℝ)), 1)])
              ++ wavPCMBytes 2 [((fun _ => (0 : ℝ)), 1)] }
      ∧ (wavPCMBytes 2 [((fun _ => (0 : ℝ)), 1)]).length
          = totalDataBytes 2 [((fun _ => (0 : ℝ)), 1)]
      ∧ le32Val (le32 ((36 + totalDataBytes 2 [((fun _ => (0 : ℝ)), 1)]) % 2 ^ 32))
          = 36 + totalDataBytes 2 [((fun _ => (0 : ℝ)), 1)]
      ∧ le32Val (le32 (totalDataBytes 2 [((fun _ => (0 : ℝ)), 1)] % 2 ^ 32))
          = totalDataBytes 2 [((fun _ => (0 : ℝ)), 1)]
      ∧ ∀ x : ℝ, wavDecode16 (wavEncodeSample x)
          = truncZ (clampUnit x * 32767)) :=
  ⟨by norm_num [totalDataBytes],
    wav_recording_header_exact 48000 [((fun _ => (0 : ℝ)), 1)]
      (by norm_num [totalDataBytes])⟩

/- ===================== DCBlocker (src/HoopiPi/DCBlocker.cpp) ============= -/

/-- DC blocking corner frequency (DCBlocker.h line 43). -/
def DC_BLOCK_FREQ : ℝ := 10

/-- State of HoopiPi::DCBlocker: previous input, previous output, and the
constructor-computed filter coefficient. -/
structure DCBlockerState where
  x1 : ℝ
  y1 : ℝ
  coefficient : ℝ

/-- DCBlocker::DCBlocker (DCBlocker.cpp lines 10-19): compute
R = 1 - 2 pi fc / fs and reset the state. -/
noncomputable def dcBlockerInit (sampleRate : ℕ) : DCBlockerState :=
  { x1 := 0
    y1 := 0
    coefficient := 1 - 2 * Real.pi * DC_BLOCK_FREQ / (sampleRate : ℝ) }

/-- One iteration of DCBlocker::process (DCBlocker.cpp lines 22-32):
y = x - x1 + R * y1, then the state carries this input and output. -/
noncomputable def dcStep (s : DCBlockerState) (input : ℝ) : DCBlockerState × ℝ :=
  let output := input - s.x1 + s.coefficient * s.y1
  ({ s with x1 := input, y1 := output }, output)

/-- DCBlocker::process over a whole buffer (DCBlocker.cpp lines 21-34). -/
noncomputable def dcProcess : DCBlockerState → List ℝ → DCBlockerState × List ℝ
  | s, [] => (s, [])
  | s, x :: xs =>
      let r := dcStep s x
      let rest := dcProcess r.1 xs
      (rest.1, r.2 :: rest.2)

/-- DCBlocker::reset (DCBlocker.cpp lines 36-39). -/
def dcReset (s : DCBlockerState) : DCBlockerState :=
  { s with x1 := 0, y1 := 0 }

lemma dcProcess_length (s : DCBlockerState) (xs : List ℝ) :
    ((dcProcess s xs).2).length = xs.length := by
  induction xs generalizing s with
  | nil => simp [dcProcess]
  | cons x xs ih => simp [dcProcess, ih]

lemma dcProcess_append (s : DCBlockerState) (xs ys : List ℝ) :
    dcProcess s (xs ++ ys)
      = ((dcProcess (dcProcess s xs).1 ys).1,
         (dcProcess s xs).2 ++ (dcProcess (dcProcess s xs).1 ys).2) := by
  induction xs generalizing s with
  | nil => simp [dcProcess]
  | cons x xs ih => simp [dcProcess, ih]

lemma dcProcess_getD (s : DCBlockerState) (xs : List ℝ) (n : ℕ)
    (h : n < xs.length) :
    ((dcProcess s xs).2).getD n 0
      = xs.getD n 0 - (if n = 0 then s.x1 else xs.getD (n - 1) 0)
        + s.coefficient
          * (if n = 0 then s.y1 else ((dcProcess s xs).2).getD (n - 1) 0) := by
  induction xs generalizing s n with
  | nil => simp at h
  | cons x xs ih =>
      cases n with
      | zero => simp [dcProcess, dcStep]
      | succ k =>
          have hk : k < xs.length := by simpa using h
          have ihk := ih (dcStep s x).1 k hk
          cases k with
          | zero =>
              simp only [dcProcess]
              simpa [dcStep] using ihk
          | succ m =>
              simp only [dcProcess]
              simpa [dcStep] using ihk

/-- C8: the DC blocker computes y[n] = x[n] - x[n-1] + R y[n-1] with
R = 1 - 2 pi fc / fs for fc = 10 Hz, the state carried into a buffer being
the previous call's last input and output (x[-1], y[-1]), outputs composing
across calls; reset zeroes both state values and keeps the coefficient. -/
theorem dcBlocker_recurrence (fs : ℕ) (s : DCBlockerState) (xs ys : List ℝ)
    (n : ℕ) (h : n < xs.length) :
    ((dcBlockerInit fs).coefficient
        = 1 - 2 * Real.pi * DC_BLOCK_FREQ / (fs : ℝ) ∧ DC_BLOCK_FREQ = 10)
    ∧ ((dcProcess s xs).2).length = xs.length
    ∧ ((dcProcess s xs).2).getD n 0
        = xs.getD n 0 - (if n = 0 then s.x1 else xs.getD (n - 1) 0)
          + s.coefficient
            * (if n = 0 then s.y1 else ((dcProcess s xs).2).getD (n - 1) 0)
    ∧ dcProcess s (xs ++ ys)
        = ((dcProcess (dcProcess s xs).1 ys).1,
           (dcProcess s xs).2 ++ (dcProcess (dcProcess s xs).1 ys).2)
    ∧ ((dcReset s).x1 = 0 ∧ (dcReset s).y1 = 0
        ∧ (dcReset s).coefficient = s.coefficient) :=
  ⟨⟨rfl, rfl⟩, dcProcess_length s xs, dcProcess_getD s xs n h,
    dcProcess_append s xs ys, rfl, rfl, rfl⟩

/-- A concrete DC-blocker state used by the C8 witness. -/
def dcWitnessState : DCBlockerState :=
  { x1 := 0, y1 := 0, coefficient := 2 }

/-- Witness for C8 on a concrete two-sample buffer. -/
theorem dcBlocker_recurrence_witness :
    1 < ([1, 0] : List ℝ).length
    ∧ (((dcBlockerInit 48000).coefficient
          = 1 - 2 * Real.pi * DC_BLOCK_FREQ / ((48000 : ℕ) : ℝ)
        ∧ DC_BLOCK_FREQ = 10)
      ∧ ((dcProcess dcWitnessState [1, 0]).2).length = ([1, 0] : List ℝ).length
      ∧ ((dcProcess dcWitnessState [1, 0]).2).getD 1 0
          = ([1, 0] : List ℝ).getD 1 0
            - (if 1 = 0 then dcWitnessState.x1
               else ([1, 0] : List ℝ).getD (1 - 1) 0)
            + dcWitnessState.coefficient
              * (if 1 = 0 then dcWitnessState.y1
                 else ((dcProcess dcWitnessState [1, 0]).2).getD (1 - 1) 0)
      ∧ dcProcess dcWitnessState ([1, 0] ++ [])
          = ((dcProcess (dcProcess dcWitnessState [1, 0]).1 []).1,
             (dcProcess dcWitnessState [1, 0]).2
               ++ (dcProcess (dcProcess dcWitnessState [1, 0]).1 []).2)
      ∧ ((dcReset dcWitnessState).x1 = 0 ∧ (dcReset dcWitnessState).y1 = 0
          ∧ (dcReset dcWitnessState).coefficient
              = dcWitnessState.coefficient)) :=
  ⟨by decide,
    dcBlocker_recurrence 48000 dcWitnessState [1, 0] [] 1 (by decide)⟩

/- ===================== NoiseGate (src/HoopiPi/NoiseGate.cpp) =============

From here on several branch conditions compare real numbers, mirroring
float comparisons in the source, so classical decidability is used. -/

open scoped Classical

/-- State of HoopiPi::NoiseGate. -/
structure NoiseGateState where
  sampleRate : ℕ
  thresholdDB : ℝ
  thresholdLinear : ℝ
  envelope : ℝ
  gain : ℝ
  attackCoeff : ℝ
  releaseCoeff : ℝ

/-- One iteration of NoiseGate::process (NoiseGate.cpp lines 16-38):
envelope follower with attack/release smoothing and a hard gate. -/
noncomputable def noiseGateStep (s : NoiseGateState) (input : ℝ) :
    NoiseGateState × ℝ :=
  let inputAbs := |input|
  let env :=
    if inputAbs > s.envelope then
      s.envelope * s.attackCoeff + inputAbs * (1 - s.attackCoeff)
    else
      s.envelope * s.releaseCoeff + inputAbs * (1 - s.releaseCoeff)
  let g := if env > s.thresholdLinear then (1 : ℝ) else 0
  ({ s with envelope := env, gain := g }, input * g)

/-- Generic in-place buffer processing loop threading a DSP state. -/
def mapProcess {σ : Type} (f : σ → ℝ → σ × ℝ) : σ → List ℝ → σ × List ℝ
  | s, [] => (s, [])
  | s, x :: xs =>
      let r := f s x
      let rest := mapProcess f r.1 xs
      (rest.1, r.2 :: rest.2)

/-- NoiseGate::process over a buffer. -/
noncomputable def noiseGateProcess (s : NoiseGateState) (xs : List ℝ) :
    NoiseGateState × List ℝ :=
  mapProcess noiseGateStep s xs

/-- NoiseGate::NoiseGate (NoiseGate.cpp lines 7-13, 50-60): threshold
-40 dB, attack 1 ms, release 100 ms. -/
noncomputable def initNoiseGate (sampleRate : ℕ) : NoiseGateState :=
  { sampleRate := sampleRate
    thresholdDB := -40
    thresholdLinear := (10 : ℝ) ^ ((-40 : ℝ) / 20)
    envelope := 0
    gain := 1
    attackCoeff := Real.exp (-1 / (1 * (sampleRate : ℝ) / 1000))
    releaseCoeff := Real.exp (-1 / (100 * (sampleRate : ℝ) / 1000)) }

/- ===================== ThreeBandEQ (src/HoopiPi/ThreeBandEQ.h) =========== -/

/-- Biquad coefficient set (ThreeBandEQ.h lines 124-126). -/
structure BiquadCoeffs where
  b0 : ℝ
  b1 : ℝ
  b2 : ℝ
  a1 : ℝ
  a2 : ℝ

/-- State of HoopiPi::ThreeBandEQ. -/
structure EQState where
  sampleRate : ℕ
  bassState : ℝ × ℝ
  midState : ℝ × ℝ
  trebleState : ℝ × ℝ
  bassCoeffs : BiquadCoeffs
  midCoeffs : BiquadCoeffs
  trebleCoeffs : BiquadCoeffs
  enabled : Bool
  bass : ℝ
  mid : ℝ
  treble : ℝ
  coeffsDirty : Bool
  bassGainTarget : ℝ
  midGainTarget : ℝ
  trebleGainTarget : ℝ
  bassGainSmooth : ℝ
  midGainSmooth : ℝ
  trebleGainSmooth : ℝ

/-- ThreeBandEQ::calculateLowShelf (ThreeBandEQ.h lines 146-161). -/
noncomputable def calculateLowShelf (sampleRate : ℕ) (freq gainDB Q : ℝ) :
    BiquadCoeffs :=
  let A := (10 : ℝ) ^ (gainDB / 40)
  let w0 := 2 * Real.pi * freq / (sampleRate : ℝ)
  let cosw0 := Real.cos w0
  let sinw0 := Real.sin w0
  let alpha := sinw0 / (2 * Q)
  let a0 := (A + 1) + (A - 1) * cosw0 + 2 * Real.sqrt A * alpha
  let a1 := -2 * ((A - 1) + (A + 1) * cosw0)
  let a2 := (A + 1) + (A - 1) * cosw0 - 2 * Real.sqrt A * alpha
  let b0 := A * ((A + 1) - (A - 1) * cosw0 + 2 * Real.sqrt A * alpha)
  let b1 := 2 * A * ((A - 1) - (A + 1) * cosw0)
  let b2 := A * ((A + 1) - (A - 1) * cosw0 - 2 * Real.sqrt A * alpha)
  { b0 := b0 / a0, b1 := b1 / a0, b2 := b2 / a0, a1 := a1 / a0, a2 := a2 / a0 }

/-- ThreeBandEQ::calculatePeaking (ThreeBandEQ.h lines 163-178). -/
noncomputable def calculatePeaking (sampleRate : ℕ) (freq gainDB Q : ℝ) :
    BiquadCoeffs :=
  let A := (10 : ℝ) ^ (gainDB / 40)
  let w0 := 2 * Real.pi * freq / (sampleRate : ℝ)
  let cosw0 := Real.cos w0
  let sinw0 := Real.sin w0
  let alpha := sinw0 / (2 * Q)
  let a0 := 1 + alpha / A
  let a1 := -2 * cosw0
  let a2 := 1 - alpha / A
  let b0 := 1 + alpha * A
  let b1 := -2 * cosw0
  let b2 := 1 - alpha * A
  { b0 := b0 / a0, b1 := b1 / a0, b2 := b2 / a0, a1 := a1 / a0, a2 := a2 / a0 }

/-- ThreeBandEQ::calculateHighShelf (ThreeBandEQ.h lines 180-195). -/
noncomputable def calculateHighShelf (sampleRate : ℕ) (freq gainDB Q : ℝ) :
    BiquadCoeffs :=
  let A := (10 : ℝ) ^ (gainDB / 40)
  let w0 := 2 * Real.pi * freq / (sampleRate : ℝ)
  let cosw0 := Real.cos w0
  let sinw0 := Real.sin w0
  let alpha := sinw0 / (2 * Q)
  let a0 := (A + 1) - (A - 1) * cosw0 + 2 * Real.sqrt A * alpha
  let a1 := 2 * ((A - 1) - (A + 1) * cosw0)
  let a2 := (A + 1) - (A - 1) * cosw0 - 2 * Real.sqrt A * alpha
  let b0 := A * ((A + 1) + (A - 1) * cosw0 + 2 * Real.sqrt A * alpha)
  let b1 := -2 * A * ((A - 1) + (A + 1) * cosw0)
  let b2 := A * ((A + 1) + (A - 1) * cosw0 - 2 * Real.sqrt A * alpha)
  { b0 := b0 / a0, b1 := b1 / a0, b2 := b2 / a0, a1 := a1 / a0, a2 := a2 / a0 }

/-- ThreeBandEQ::processBiquad (ThreeBandEQ.h lines 128-133), returning the
new two-cell delay state with the output. -/
noncomputable def processBiquad (input : ℝ) (st : ℝ × ℝ) (c : BiquadCoeffs) :
    (ℝ × ℝ) × ℝ :=
  let output := c.b0 * input + st.1
  let s0 := c.b1 * input - c.a1 * output + st.2
  let s1 := c.b2 * input - c.a2 * output
  ((s0, s1), output)

/-- ThreeBandEQ::updateCoefficients (ThreeBandEQ.h lines 135-144). -/
noncomputable def eqUpdateCoefficients (s : EQState) : EQState :=
  { s with
    bassCoeffs := calculateLowShelf s.sampleRate 120 s.bass 0.707
    midCoeffs := calculatePeaking s.sampleRate 750 s.mid 1
    trebleCoeffs := calculateHighShelf s.sampleRate 3000 s.treble 0.707 }

/-- ThreeBandEQ::process on one sample (ThreeBandEQ.h lines 26-55):
enabled check, lazy coefficient recomputation on the dirty flag, gain
smoothing, then the three cascaded biquads. -/
noncomputable def eqProcessOne (s : EQState) (input : ℝ) : EQState × ℝ :=
  if s.enabled = false then (s, input)
  else
    let s1 :=
      if s.coeffsDirty = true then
        { eqUpdateCoefficients s with coeffsDirty := false }
      else s
    let smoothingCoeff : ℝ := 0.999
    let s2 := { s1 with
      bassGainSmooth := s1.bassGainTarget
        + smoothingCoeff * (s1.bassGainSmooth - s1.bassGainTarget)
      midGainSmooth := s1.midGainTarget
        + smoothingCoeff * (s1.midGainSmooth - s1.midGainTarget)
      trebleGainSmooth := s1.trebleGainTarget
        + smoothingCoeff * (s1.trebleGainSmooth - s1.trebleGainTarget) }
    let rb := processBiquad input s2.bassState s2.bassCoeffs
    let rm := processBiquad rb.2 s2.midState s2.midCoeffs
    let rt := processBiquad rm.2 s2.trebleState s2.trebleCoeffs
    ({ s2 with bassState := rb.1, midState := rm.1, trebleState := rt.1 },
      rt.2)

/-- ThreeBandEQ::process over a buffer (ThreeBandEQ.h lines 60-64). -/
noncomputable def eqProcess (s : EQState) (xs : List ℝ) : EQState × List ℝ :=
  mapProcess eqProcessOne s xs

/-- ThreeBandEQ::ThreeBandEQ (ThreeBandEQ.h lines 16-21 and the member
initializers): zero delay state, flat 0 dB bands, disabled, dirty flag
left true, unit gain targets. -/
noncomputable def initEQ (sampleRate : ℕ) : EQState :=
  { sampleRate := sampleRate
    bassState := (0, 0)
    midState := (0, 0)
    trebleState := (0, 0)
    bassCoeffs := calculateLowShelf sampleRate 120 0 0.707
    midCoeffs := calculatePeaking sampleRate 750 0 1
    trebleCoeffs := calculateHighShelf sampleRate 3000 0 0.707
    enabled := false
    bass := 0
    mid := 0
    treble := 0
    coeffsDirty := true
    bassGainTarget := 1
    midGainTarget := 1
    trebleGainTarget := 1
    bassGainSmooth := 1
    midGainSmooth := 1
    trebleGainSmooth := 1 }

/- ===================== ModelLoader (src/HoopiPi/ModelLoader.cpp) =========

The external NeuralAudio::NeuralModel is abstracted: a successful
CreateFromFile yields a pure block transform plus the model's reported
sample rate and recommended output level; the worker-side condition-variable
waits have no worker-visible state effect and are not modelled. -/

/-- Fade phases (ModelLoader.h line 129). -/
inductive FadeState
  | Idle
  | FadingOut
  | FadingIn
deriving DecidableEq

/-- Fade length (ModelLoader.h line 127): about 5 ms at 48 kHz. -/
def FADE_SAMPLES : ℕ := 256

/-- Result of the external NeuralModel::CreateFromFile. -/
structure NeuralModelSpec where
  fn : List ℝ → List ℝ
  reportedSampleRate : Int
  outputDBAdjustment : ℝ

/-- State of HoopiPi::ModelLoader visible to the engine and worker. -/
structure LoaderState where
  sampleRate : ℕ
  maxBufferSize : ℕ
  model : Option (List ℝ → List ℝ)
  modelPath : String
  ready : Bool
  doRampDown : Bool
  doRampUp : Bool
  modelSampleRate : Int
  fadeGain : ℝ
  fadeSamplesRemaining : ℕ
  fadeState : FadeState
  normalizationGain : ℝ
  loadRequested : Bool
  pendingModelPath : String

/-- ModelLoader::loadModelAsync (ModelLoader.cpp lines 37-44): record the
pending path and raise the request flag. -/
def loaderLoadModelAsync (st : LoaderState) (modelPath : String) :
    LoaderState :=
  { st with pendingModelPath := modelPath, loadRequested := true }

/-- ModelLoader::isReady (ModelLoader.h line 47). -/
def loaderIsReady (st : LoaderState) : Bool :=
  st.ready

/-- ModelLoader::getModelPath (ModelLoader.cpp lines 66-68). -/
def loaderGetModelPath (st : LoaderState) : String :=
  st.modelPath

/-- ModelLoader::startFadeOut (ModelLoader.cpp lines 231-236). -/
def startFadeOut (st : LoaderState) : LoaderState :=
  { st with
    doRampDown := true
    fadeState := FadeState.FadingOut
    fadeSamplesRemaining := FADE_SAMPLES
    fadeGain := 1 }

/-- ModelLoader::startFadeIn (ModelLoader.cpp lines 238-243). -/
def startFadeIn (st : LoaderState) : LoaderState :=
  { st with
    doRampUp := true
    fadeState := FadeState.FadingIn
    fadeSamplesRemaining := FADE_SAMPLES
    fadeGain := 0 }

/-- ModelLoader::doLoadModel (ModelLoader.cpp lines 163-227).  The
construction of the model from the file is the parameter loadFromFile;
None models CreateFromFile returning null or throwing.  On failure the
loader clears ready and its own path.  On success it records the model
data, installs the transform, starts the fade-in and sets ready. -/
noncomputable def doLoadModel (loadFromFile : String → Option NeuralModelSpec)
    (st : LoaderState) (path : String) : LoaderState :=
  let st1 := if st.ready = true then startFadeOut st else st
  let st2 := { st1 with ready := false }
  match loadFromFile path with
  | none => { st2 with ready := false, modelPath := "" }
  | some m =>
      let normGain := (10 : ℝ) ^ ((-6 + m.outputDBAdjustment) / 20)
      let st3 := { st2 with
        modelSampleRate := m.reportedSampleRate
        normalizationGain := normGain
        model := some m.fn
        modelPath := path }
      let st4 := startFadeIn st3
      { st4 with ready := true }

/-- One pass of ModelLoader::workerThread (ModelLoader.cpp lines 139-161)
over a pending request: consume the request flag and run doLoadModel. -/
noncomputable def workerProcessOne
    (loadFromFile : String → Option NeuralModelSpec) (st : LoaderState) :
    LoaderState :=
  if st.loadRequested = true then
    doLoadModel loadFromFile { st with loadRequested := false }
      st.pendingModelPath
  else st

/-- Per-sample loop of ModelLoader::applyFade (ModelLoader.cpp lines
245-280), threading (fadeState, remaining, gain, doRampDown, doRampUp). -/
noncomputable def applyFadeGo :
    FadeState → ℕ → ℝ → Bool → Bool → List ℝ →
      (FadeState × ℕ × ℝ × Bool × Bool) × List ℝ
  | fs, rem, g, down, up, [] => ((fs, rem, g, down, up), [])
  | fs, rem, g, down, up, x :: xs =>
      if 0 < rem then
        let g1 :=
          if fs = FadeState.FadingOut then (rem : ℝ) / (FADE_SAMPLES : ℝ)
          else if fs = FadeState.FadingIn then
            1 - (rem : ℝ) / (FADE_SAMPLES : ℝ)
          else g
        let y := x * g1
        let rem1 := rem - 1
        let next :=
          if rem1 = 0 then
            if fs = FadeState.FadingOut then
              (FadeState.Idle, rem1, (0 : ℝ), false, up)
            else if fs = FadeState.FadingIn then
              (FadeState.Idle, rem1, (1 : ℝ), down, false)
            else (FadeState.Idle, rem1, g1, down, up)
          else (fs, rem1, g1, down, up)
        let r := applyFadeGo next.1 next.2.1 next.2.2.1 next.2.2.2.1
          next.2.2.2.2 xs
        (r.1, y :: r.2)
      else
        let r := applyFadeGo fs rem g down up xs
        (r.1, x :: r.2)

/-- ModelLoader::applyFade (ModelLoader.cpp lines 245-280). -/
noncomputable def loaderApplyFade (st : LoaderState) (buf : List ℝ) :
    LoaderState × List ℝ :=
  if st.fadeState = FadeState.Idle then (st, buf)
  else
    let r := applyFadeGo st.fadeState st.fadeSamplesRemaining st.fadeGain
      st.doRampDown st.doRampUp buf
    ({ st with
        fadeState := r.1.1
        fadeSamplesRemaining := r.1.2.1
        fadeGain := r.1.2.2.1
        doRampDown := r.1.2.2.2.1
        doRampUp := r.1.2.2.2.2 }, r.2)

/-- ModelLoader::process (ModelLoader.cpp lines 70-103): bypass when not
ready or no model, otherwise model inference, optional normalization gain,
then the fade envelope. -/
noncomputable def loaderProcess (st : LoaderState) (input : List ℝ)
    (applyNormalization : Bool) : LoaderState × List ℝ :=
  if st.ready = false then (st, input)
  else
    match st.model with
    | none => (st, input)
    | some f =>
        let out1 := f input
        let out2 :=
          if applyNormalization = true ∧ st.normalizationGain ≠ 1 then
            out1.map (fun v => v * st.normalizationGain)
          else out1
        loaderApplyFade st out2

/-- ModelLoader::ModelLoader member initializers (ModelLoader.h). -/
def initLoader (sampleRate maxBufferSize : ℕ) : LoaderState :=
  { sampleRate := sampleRate
    maxBufferSize := maxBufferSize
    model := none
    modelPath := ""
    ready := false
    doRampDown := false
    doRampUp := false
    modelSampleRate := 0
    fadeGain := 0
    fadeSamplesRemaining := 0
    fadeState := FadeState.Idle
    normalizationGain := 1
    loadRequested := false
    pendingModelPath := "" }

/- ===================== Engine (src/HoopiPi/Engine.cpp) ===================

The engine state is parametric in the reverb's internal state type; the
mt19937-seeded delay-network DSP of Reverb::process is abstracted as a
stereo transform passed to processStereo (no claim concerns its
arithmetic).  Null checks on the always-allocated members are dropped. -/

/-- Stereo processing modes (Engine.h lines 25-30). -/
inductive StereoMode
  | LeftMono2Stereo
  | Stereo2Stereo
  | RightMono2Stereo
  | Stereo2Mono
deriving DecidableEq

/-- Gain smoothing coefficient (Engine.h line 605). -/
noncomputable def GAIN_SMOOTH_COEFF : ℝ := 0.999

/-- State of HoopiPi::Engine with all member cells (Engine.h lines
530-616), the two model slots, the per-channel DSP blocks, the reverb
enable flag mirroring Reverb::m_enabled, and the recorder. -/
structure EngineState (ρ : Type) where
  sampleRate : ℕ
  bufferSize : ℕ
  stereoMode : StereoMode
  stereo2MonoMixL : ℝ
  stereo2MonoMixR : ℝ
  slots : Fin 2 → LoaderState
  activeSlot : Int
  activeSlotL : Int
  activeSlotR : Int
  modelPaths : Fin 2 → String
  noiseGateL : NoiseGateState
  dcBlockerL : DCBlockerState
  eqL : EQState
  noiseGateR : NoiseGateState
  dcBlockerR : DCBlockerState
  eqR : EQState
  noiseGate : NoiseGateState
  dcBlocker : DCBlockerState
  eq : EQState
  reverbEnabled : Bool
  reverbCore : ρ
  recorder : AudioRecorderState
  backingTrack : Option BackingTrackState
  includeBackingTrackInRecording : Bool
  inputGainLinearL : ℝ
  outputGainLinearL : ℝ
  noiseGateEnabledL : Bool
  inputGainLinearR : ℝ
  outputGainLinearR : ℝ
  noiseGateEnabledR : Bool
  inputGainLinear : ℝ
  outputGainLinear : ℝ
  bypass : Bool
  bypassModel : Bool
  bypassModelL : Bool
  bypassModelR : Bool
  normalize : Bool
  noiseGateEnabled : Bool
  dcBlockerEnabled : Bool
  currentInputGainL : ℝ
  currentOutputGainL : ℝ
  currentInputGainR : ℝ
  currentOutputGainR : ℝ
  currentInputGain : ℝ
  currentOutputGain : ℝ
  xrunCount : ℕ

/-- Engine::smoothGains (Engine.cpp lines 674-702). -/
noncomputable def smoothGains {ρ : Type} (s : EngineState ρ) : EngineState ρ :=
  { s with
    currentInputGain := s.currentInputGain * GAIN_SMOOTH_COEFF
      + s.inputGainLinear * (1 - GAIN_SMOOTH_COEFF)
    currentOutputGain := s.currentOutputGain * GAIN_SMOOTH_COEFF
      + s.outputGainLinear * (1 - GAIN_SMOOTH_COEFF)
    currentInputGainL := s.currentInputGainL * GAIN_SMOOTH_COEFF
      + s.inputGainLinearL * (1 - GAIN_SMOOTH_COEFF)
    currentOutputGainL := s.currentOutputGainL * GAIN_SMOOTH_COEFF
      + s.outputGainLinearL * (1 - GAIN_SMOOTH_COEFF)
    currentInputGainR := s.currentInputGainR * GAIN_SMOOTH_COEFF
      + s.inputGainLinearR * (1 - GAIN_SMOOTH_COEFF)
    currentOutputGainR := s.currentOutputGainR * GAIN_SMOOTH_COEFF
      + s.outputGainLinearR * (1 - GAIN_SMOOTH_COEFF) }

/-- Valid slot index for an int-typed active-slot cell: the source
guards with slot >= 0 && slot < 2. -/
def getSlotIdx (a : Int) : Option (Fin 2) :=
  if h : 0 ≤ a ∧ a < 2 then some ⟨a.toNat, by omega⟩ else none

/-- Semantics of memcpy from a source buffer into an n-sample buffer. -/
def copyBuf (n : ℕ) (l : List ℝ) : List ℝ :=
  (List.range n).map (fun i => l.getD i 0)

/-- Model stage shared by process and processStereo (Engine.cpp lines
111-117 and 210-216): run the active slot when it is in range, not
bypassed and ready. -/
noncomputable def applyModelSlot (slots : Fin 2 → LoaderState) (active : Int)
    (byp normalize : Bool) (buf : List ℝ) : (Fin 2 → LoaderState) × List ℝ :=
  match getSlotIdx active with
  | some i =>
      if byp = false ∧ (slots i).ready = true then
        let r := loaderProcess (slots i) buf normalize
        (Function.update slots i r.1, r.2)
      else (slots, buf)
  | none => (slots, buf)

/-- Legacy mono chain of Engine::process (Engine.cpp lines 92-132):
smoothed input gain, noise gate, active model slot, EQ, DC blocker,
smoothed output gain. -/
noncomputable def monoChain {ρ : Type} (s : EngineState ρ) (input : List ℝ) :
    EngineState ρ × List ℝ :=
  let buf1 :=
    if s.currentInputGain ≠ 1 then
      input.map (fun v => v * s.currentInputGain)
    else input
  let gateRes :=
    if s.noiseGateEnabled = true then noiseGateProcess s.noiseGate buf1
    else (s.noiseGate, buf1)
  let modelRes := applyModelSlot s.slots s.activeSlot s.bypassModel
    s.normalize gateRes.2
  let eqRes := eqProcess s.eq modelRes.2
  let dcRes :=
    if s.dcBlockerEnabled = true then dcProcess s.dcBlocker eqRes.2
    else (s.dcBlocker, eqRes.2)
  let buf6 :=
    if s.currentOutputGain ≠ 1 then
      dcRes.2.map (fun v => v * s.currentOutputGain)
    else dcRes.2
  ({ s with
      noiseGate := gateRes.1
      slots := modelRes.1
      eq := eqRes.1
      dcBlocker := dcRes.1 }, buf6)

/-- Recording tap of Engine::process (Engine.cpp lines 134-137): the mono
signal goes to both recorded channels. -/
noncomputable def monoRecordTap {ρ : Type} (s : EngineState ρ) (n : ℕ)
    (buf : List ℝ) : EngineState ρ :=
  if s.recorder.recording = true then
    { s with
        recorder := pushAudioFrame s.recorder (fun i => buf.getD i 0)
          (fun i => buf.getD i 0) n }
  else s

/-- Engine::process, mono (Engine.cpp lines 77-141).  The block length is
the input list's length; the early branches are the xrun passthrough and
the whole-engine bypass, then the chain and the recording tap. -/
noncomputable def process {ρ : Type} (s : EngineState ρ) (input : List ℝ) :
    EngineState ρ × List ℝ :=
  if input.length > s.bufferSize then
    ({ s with xrunCount := (s.xrunCount + 1) % 2 ^ 32 }, input)
  else if s.bypass = true then
    (s, input)
  else
    let chainRes := monoChain (smoothGains s) input
    (monoRecordTap chainRes.1 input.length chainRes.2, chainRes.2)

/-- Left-input selection of processStereo (Engine.cpp lines 176-182). -/
def selectInputL (mode : StereoMode) (inputL : List ℝ)
    (inputR : Option (List ℝ)) : List ℝ :=
  match mode, inputR with
  | StereoMode.RightMono2Stereo, some r => r
  | _, _ => inputL

/-- Right-input selection of processStereo (Engine.cpp lines 176-182). -/
def selectInputR (mode : StereoMode) (inputL : List ℝ)
    (inputR : Option (List ℝ)) : List ℝ :=
  match mode, inputR with
  | StereoMode.Stereo2Stereo, some r => r
  | StereoMode.RightMono2Stereo, some r => r
  | _, _ => inputL

/-- Left-buffer initialization of processStereo (Engine.cpp lines
184-196): the Stereo2Mono mix of both inputs, or a copy of the selected
left input. -/
noncomputable def stereoInitialLeft {ρ : Type} (s : EngineState ρ) (n : ℕ)
    (inputL : List ℝ) (inputR : Option (List ℝ)) : List ℝ :=
  match s.stereoMode, inputR with
  | StereoMode.Stereo2Mono, some r =>
      (List.range n).map (fun i =>
        inputL.getD i 0 * s.stereo2MonoMixL + r.getD i 0 * s.stereo2MonoMixR)
  | mode, ir => copyBuf n (selectInputL mode inputL ir)

/-- Left channel chain of processStereo (Engine.cpp lines 198-231). -/
noncomputable def stereoLeftChain {ρ : Type} (s : EngineState ρ)
    (bufL0 : List ℝ) : EngineState ρ × List ℝ :=
  let bufL1 :=
    if s.currentInputGainL ≠ 1 then
      bufL0.map (fun v => v * s.currentInputGainL)
    else bufL0
  let gateL :=
    if s.noiseGateEnabledL = true then noiseGateProcess s.noiseGateL bufL1
    else (s.noiseGateL, bufL1)
  let modelL := applyModelSlot s.slots s.activeSlotL s.bypassModelL
    s.normalize gateL.2
  let eqResL := eqProcess s.eqL modelL.2
  let dcResL :=
    if s.dcBlockerEnabled = true then dcProcess s.dcBlockerL eqResL.2
    else (s.dcBlockerL, eqResL.2)
  let bufL :=
    if s.currentOutputGainL ≠ 1 then
      dcResL.2.map (fun v => v * s.currentOutputGainL)
    else dcResL.2
  ({ s with
      noiseGateL := gateL.1
      slots := modelL.1
      eqL := eqResL.1
      dcBlockerL := dcResL.1 }, bufL)

/-- Right channel chain of processStereo in Stereo2Stereo mode (Engine.cpp
lines 236-269): independent chain that skips the model stage. -/
noncomputable def stereoRightChain {ρ : Type} (s : EngineState ρ)
    (r0 : List ℝ) : EngineState ρ × List ℝ :=
  let r1 :=
    if s.currentInputGainR ≠ 1 then r0.map (fun v => v * s.currentInputGainR)
    else r0
  let gateRr :=
    if s.noiseGateEnabledR = true then noiseGateProcess s.noiseGateR r1
    else (s.noiseGateR, r1)
  let eqResR := eqProcess s.eqR gateRr.2
  let dcResR :=
    if s.dcBlockerEnabled = true then dcProcess s.dcBlockerR eqResR.2
    else (s.dcBlockerR, eqResR.2)
  let r2 :=
    if s.currentOutputGainR ≠ 1 then
      dcResR.2.map (fun v => v * s.currentOutputGainR)
    else dcResR.2
  ({ s with
      noiseGateR := gateRr.1
      eqR := eqResR.1
      dcBlockerR := dcResR.1 }, r2)

/-- Recording tap of processStereo (Engine.cpp lines 280-302): mix the
backing track into the buffers when so configured, then push to the
recorder ring. -/
noncomputable def recordingTap {ρ : Type} (s : EngineState ρ) (n : ℕ)
    (bufL bufR : List ℝ) : EngineState ρ × List ℝ × List ℝ :=
  match s.backingTrack with
  | some bt =>
      if s.recorder.recording = true
          ∧ s.includeBackingTrackInRecording = true
          ∧ bt.isPlaying = true then
        let fr := fillBuffer bt n
        let mixedL := List.zipWith (fun a b => a + b) bufL fr.2.1
        let mixedR := List.zipWith (fun a b => a + b) bufR fr.2.2
        ({ s with
            backingTrack := some fr.1
            recorder := pushAudioFrame s.recorder (fun i => mixedL.getD i 0)
              (fun i => mixedR.getD i 0) n },
         mixedL, mixedR)
      else if s.recorder.recording = true then
        ({ s with
            recorder := pushAudioFrame s.recorder (fun i => bufL.getD i 0)
              (fun i => bufR.getD i 0) n },
         bufL, bufR)
      else (s, bufL, bufR)
  | none =>
      if s.recorder.recording = true then
        ({ s with
            recorder := pushAudioFrame s.recorder (fun i => bufL.getD i 0)
              (fun i => bufR.getD i 0) n },
         bufL, bufR)
      else (s, bufL, bufR)

/-- Engine::processStereo (Engine.cpp lines 143-309).  inputR models a
possibly null right input pointer; the returned right buffer is the content
the source stores through a non-null outputR.  reverbFn is the abstracted
Reverb::process. -/
noncomputable def processStereo {ρ : Type}
    (reverbFn : ρ → List ℝ → List ℝ → ρ × List ℝ × List ℝ)
    (s : EngineState ρ) (inputL : List ℝ) (inputR : Option (List ℝ)) :
    EngineState ρ × List ℝ × List ℝ :=
  if inputL.length > s.bufferSize then
    ({ s with xrunCount := (s.xrunCount + 1) % 2 ^ 32 },
     inputL, match inputR with | some r => r | none => inputL)
  else if s.bypass = true then
    (s, inputL, match inputR with | some r => r | none => inputL)
  else
    let n := inputL.length
    let s0 := smoothGains s
    let leftRes := stereoLeftChain s0 (stereoInitialLeft s0 n inputL inputR)
    let rightRes :=
      if s0.stereoMode = StereoMode.Stereo2Stereo then
        stereoRightChain leftRes.1
          (copyBuf n (selectInputR s0.stereoMode inputL inputR))
      else (leftRes.1, leftRes.2)
    let s5 := rightRes.1
    let rev :=
      if s5.reverbEnabled = true then
        reverbFn s5.reverbCore leftRes.2 rightRes.2
      else (s5.reverbCore, leftRes.2, rightRes.2)
    let s6 := { s5 with reverbCore := rev.1 }
    recordingTap s6 n rev.2.1 rev.2.2

/-- Engine::loadModelAsync (Engine.cpp lines 311-316): forward to the
slot's loader and record the path in the engine-level cache. -/
def engineLoadModelAsync {ρ : Type} (s : EngineState ρ) (slot : Int)
    (modelPath : String) : EngineState ρ :=
  match getSlotIdx slot with
  | none => s
  | some i =>
      { s with
        slots := Function.update s.slots i
          (loaderLoadModelAsync (s.slots i) modelPath)
        modelPaths := Function.update s.modelPaths i modelPath }

/-- Engine::isModelReady (Engine.cpp lines 318-321). -/
def engineIsModelReady {ρ : Type} (s : EngineState ρ) (slot : Int) : Bool :=
  match getSlotIdx slot with
  | none => false
  | some i => loaderIsReady (s.slots i)

/-- Engine::getModelPath (Engine.cpp lines 372-375): reads the engine-level
path cache, not the loader's own path. -/
def engineGetModelPath {ρ : Type} (s : EngineState ρ) (slot : Int) : String :=
  match getSlotIdx slot with
  | none => ""
  | some i => s.modelPaths i

/-- One completed pass of slot i's loader worker over its pending request
(ModelLoader.cpp lines 139-161), seen from the engine. -/
noncomputable def engineWorkerStep {ρ : Type}
    (loadFromFile : String → Option NeuralModelSpec) (s : EngineState ρ)
    (i : Fin 2) : EngineState ρ :=
  { s with
    slots := Function.update s.slots i
      (workerProcessOne loadFromFile (s.slots i)) }

/-- Engine::setStereo2MonoMixL (Engine.cpp lines 393-397). -/
def setStereo2MonoMixL {ρ : Type} (s : EngineState ρ) (level : ℝ) :
    EngineState ρ :=
  { s with stereo2MonoMixL := max 0 (min 1 level) }

/-- Engine::setStereo2MonoMixR (Engine.cpp lines 399-403). -/
def setStereo2MonoMixR {ρ : Type} (s : EngineState ρ) (level : ℝ) :
    EngineState ρ :=
  { s with stereo2MonoMixR := max 0 (min 1 level) }

/-- Engine::getStereo2MonoMixL (Engine.cpp lines 405-407). -/
def getStereo2MonoMixL {ρ : Type} (s : EngineState ρ) : ℝ :=
  s.stereo2MonoMixL

/-- Engine::getStereo2MonoMixR (Engine.cpp lines 409-411). -/
def getStereo2MonoMixR {ρ : Type} (s : EngineState ρ) : ℝ :=
  s.stereo2MonoMixR

/-- AudioRecorder at construction (member initializers): not recording,
zero positions and counter. -/
def initRecorder : AudioRecorderState :=
  { recordingsDir := "./recordings"
    currentFilePath := ""
    sampleRate := 48000
    ringBuffer := fun _ => 0
    writePos := 0
    readPos := 0
    recording := false
    droppedFrames := 0
    writerThreadActive := false
    recordingStartTime := 0 }

/-- Engine::Engine plus the member initializers of Engine.h lines 530-616,
with the trivial reverb core: fresh slots and DSP blocks, LeftMono2Stereo,
0.5/0.5 mix, unit gains, bypassModelR true, normalize true, everything
else off and zero. -/
noncomputable def initEngine (sampleRate bufferSize : ℕ) : EngineState Unit :=
  { sampleRate := sampleRate
    bufferSize := bufferSize
    stereoMode := StereoMode.LeftMono2Stereo
    stereo2MonoMixL := 0.5
    stereo2MonoMixR := 0.5
    slots := fun _ => initLoader sampleRate bufferSize
    activeSlot := 0
    activeSlotL := 0
    activeSlotR := 0
    modelPaths := fun _ => ""
    noiseGateL := initNoiseGate sampleRate
    dcBlockerL := dcBlockerInit sampleRate
    eqL := initEQ sampleRate
    noiseGateR := initNoiseGate sampleRate
    dcBlockerR := dcBlockerInit sampleRate
    eqR := initEQ sampleRate
    noiseGate := initNoiseGate sampleRate
    dcBlocker := dcBlockerInit sampleRate
    eq := initEQ sampleRate
    reverbEnabled := false
    reverbCore := ()
    recorder := initRecorder
    backingTrack := none
    includeBackingTrackInRecording := false
    inputGainLinearL := 1
    outputGainLinearL := 1
    noiseGateEnabledL := false
    inputGainLinearR := 1
    outputGainLinearR := 1
    noiseGateEnabledR := false
    inputGainLinear := 1
    outputGainLinear := 1
    bypass := false
    bypassModel := false
    bypassModelL := false
    bypassModelR := true
    normalize := true
    noiseGateEnabled := false
    dcBlockerEnabled := false
    currentInputGainL := 1
    currentOutputGainL := 1
    currentInputGainR := 1
    currentOutputGainR := 1
    currentInputGain := 1
    currentOutputGain := 1
    xrunCount := 0 }

/- ===================== Engine theorems =================================== -/

/-- C6: a block longer than the construction-time maximum increments the
xrun counter by exactly one and passes the input through unchanged on both
the mono and the stereo entry points, with no other engine state
modified. -/
theorem process_oversized_block_xrun {ρ : Type}
    (reverbFn : ρ → List ℝ → List ℝ → ρ × List ℝ × List ℝ)
    (s : EngineState ρ) (input r : List ℝ)
    (h : input.length > s.bufferSize) (hx : s.xrunCount + 1 < 2 ^ 32) :
    process s input = ({ s with xrunCount := s.xrunCount + 1 }, input)
    ∧ processStereo reverbFn s input (some r)
        = ({ s with xrunCount := s.xrunCount + 1 }, input, r) := by
  have hmod : (s.xrunCount + 1) % 2 ^ 32 = s.xrunCount + 1 :=
    Nat.mod_eq_of_lt hx
  constructor
  · simp only [process, if_pos h, hmod]
  · simp only [processStereo, if_pos h, hmod]

/-- C7: with the whole-engine bypass cell set, any block within the maximum
size is copied to the output sample-for-sample on both entry points, with
no state change, regardless of every other parameter cell. -/
theorem process_bypass_passthrough {ρ : Type}
    (reverbFn : ρ → List ℝ → List ℝ → ρ × List ℝ × List ℝ)
    (s : EngineState ρ) (input r : List ℝ)
    (hn : ¬ input.length > s.bufferSize) (hb : s.bypass = true) :
    process s input = (s, input)
    ∧ processStereo reverbFn s input (some r) = (s, input, r) := by
  constructor
  · simp only [process, if_neg hn, hb, if_pos]
  · simp only [processStereo, if_neg hn, hb, if_pos]

/-- An inert noise gate state for witness engines. -/
def plainGate : NoiseGateState :=
  { sampleRate := 48000
    thresholdDB := 0
    thresholdLinear := 0
    envelope := 0
    gain := 1
    attackCoeff := 0
    releaseCoeff := 0 }

/-- Zero biquad coefficients for witness engines. -/
def plainBiquad : BiquadCoeffs :=
  { b0 := 0, b1 := 0, b2 := 0, a1 := 0, a2 := 0 }

/-- An inert EQ state for witness engines. -/
def plainEQ : EQState :=
  { sampleRate := 48000
    bassState := (0, 0)
    midState := (0, 0)
    trebleState := (0, 0)
    bassCoeffs := plainBiquad
    midCoeffs := plainBiquad
    trebleCoeffs := plainBiquad
    enabled := false
    bass := 0
    mid := 0
    treble := 0
    coeffsDirty := false
    bassGainTarget := 1
    midGainTarget := 1
    trebleGainTarget := 1
    bassGainSmooth := 1
    midGainSmooth := 1
    trebleGainSmooth := 1 }

/-- An inert DC blocker state for witness engines. -/
def plainDC : DCBlockerState :=
  { x1 := 0, y1 := 0, coefficient := 0 }

/-- A small concrete engine state for the engine-level witnesses, with a
2-sample block maximum; its DSP fields are inert, which is irrelevant
because every exercised branch returns before reaching the chain. -/
def engineW : EngineState Unit :=
  { sampleRate := 48000
    bufferSize := 2
    stereoMode := StereoMode.LeftMono2Stereo
    stereo2MonoMixL := 0
    stereo2MonoMixR := 0
    slots := fun _ => initLoader 48000 2
    activeSlot := 0
    activeSlotL := 0
    activeSlotR := 0
    modelPaths := fun _ => ""
    noiseGateL := plainGate
    dcBlockerL := plainDC
    eqL := plainEQ
    noiseGateR := plainGate
    dcBlockerR := plainDC
    eqR := plainEQ
    noiseGate := plainGate
    dcBlocker := plainDC
    eq := plainEQ
    reverbEnabled := false
    reverbCore := ()
    recorder := initRecorder
    backingTrack := none
    includeBackingTrackInRecording := false
    inputGainLinearL := 1
    outputGainLinearL := 1
    noiseGateEnabledL := false
    inputGainLinearR := 1
    outputGainLinearR := 1
    noiseGateEnabledR := false
    inputGainLinear := 1
    outputGainLinear := 1
    bypass := false
    bypassModel := false
    bypassModelL := false
    bypassModelR := true
    normalize := true
    noiseGateEnabled := false
    dcBlockerEnabled := false
    currentInputGainL := 1
    currentOutputGainL := 1
    currentInputGainR := 1
    currentOutputGainR := 1
    currentInputGain := 1
    currentOutputGain := 1
    xrunCount := 0 }

/-- The small engine with only the bypass cell set. -/
def bypassEngineW : EngineState Unit :=
  { engineW with bypass := true }

/-- A reverb transform placeholder for the trivial reverb core. -/
def unitReverb : Unit → List ℝ → List ℝ → Unit × List ℝ × List ℝ :=
  fun u l r => (u, l, r)

/-- Witness for C6: a 3-sample block against the 2-sample maximum. -/
theorem process_oversized_block_xrun_witness :
    ([0, 1, 2] : List ℝ).length > engineW.bufferSize
    ∧ engineW.xrunCount + 1 < 2 ^ 32
    ∧ (process engineW [0, 1, 2]
          = ({ engineW with xrunCount := engineW.xrunCount + 1 }, [0, 1, 2])
      ∧ processStereo unitReverb engineW [0, 1, 2] (some [3, 4, 5])
          = ({ engineW with xrunCount := engineW.xrunCount + 1 },
             [0, 1, 2], [3, 4, 5])) :=
  ⟨by decide, by decide,
    process_oversized_block_xrun unitReverb engineW [0, 1, 2] [3, 4, 5]
      (by decide) (by decide)⟩

/-- Witness for C7: a 2-sample block through the bypassed engine. -/
theorem process_bypass_passthrough_witness :
    ¬ ([0, 1] : List ℝ).length > bypassEngineW.bufferSize
    ∧ bypassEngineW.bypass = true
    ∧ (process bypassEngineW [0, 1] = (bypassEngineW, [0, 1])
      ∧ processStereo unitReverb bypassEngineW [0, 1] (some [3, 4])
          = (bypassEngineW, [0, 1], [3, 4])) :=
  ⟨by decide, rfl,
    process_bypass_passthrough unitReverb bypassEngineW [0, 1] [3, 4]
      (by decide) rfl⟩

/-- Control operations that write the Stereo2Mono mix cells; they are the
only writers of those cells in the source. -/
inductive MixOp
  | setL : ℝ → MixOp
  | setR : ℝ → MixOp

/-- Apply one mix-cell write. -/
def applyMixOp {ρ : Type} (s : EngineState ρ) : MixOp → EngineState ρ
  | MixOp.setL v => setStereo2MonoMixL s v
  | MixOp.setR v => setStereo2MonoMixR s v

/-- Apply a sequence of mix-cell writes. -/
def applyMixOps {ρ : Type} (s : EngineState ρ) (ops : List MixOp) :
    EngineState ρ :=
  ops.foldl applyMixOp s

lemma mixOps_bounds {ρ : Type} (ops : List MixOp) (s : EngineState ρ)
    (hL1 : 0 ≤ s.stereo2MonoMixL) (hL2 : s.stereo2MonoMixL ≤ 1)
    (hR1 : 0 ≤ s.stereo2MonoMixR) (hR2 : s.stereo2MonoMixR ≤ 1) :
    0 ≤ (applyMixOps s ops).stereo2MonoMixL
    ∧ (applyMixOps s ops).stereo2MonoMixL ≤ 1
    ∧ 0 ≤ (applyMixOps s ops).stereo2MonoMixR
    ∧ (applyMixOps s ops).stereo2MonoMixR ≤ 1 := by
  induction ops generalizing s with
  | nil =>
      simpa [applyMixOps] using ⟨hL1, hL2, hR1, hR2⟩
  | cons op tl ih =>
      have hstep : applyMixOps s (op :: tl) = applyMixOps (applyMixOp s op) tl := by
        simp [applyMixOps]
      rw [hstep]
      cases op with
      | setL v =>
          exact ih _ (le_max_left 0 _)
            (max_le (by norm_num) (min_le_left 1 v)) hR1 hR2
      | setR v =>
          exact ih _ hL1 hL2 (le_max_left 0 _)
            (max_le (by norm_num) (min_le_left 1 v))

/-- C10: the Stereo2Mono mix setters store the value clamped to [0, 1],
the construction defaults are 0.5, and after any sequence of mix-cell
writes the getters return a value in [0, 1]. -/
theorem stereo2MonoMix_cells_clamped {ρ : Type} (s : EngineState ρ) (v : ℝ)
    (sr bs : ℕ) (ops : List MixOp) :
    (setStereo2MonoMixL s v).stereo2MonoMixL = max 0 (min 1 v)
    ∧ (setStereo2MonoMixR s v).stereo2MonoMixR = max 0 (min 1 v)
    ∧ getStereo2MonoMixL (initEngine sr bs) = 0.5
    ∧ getStereo2MonoMixR (initEngine sr bs) = 0.5
    ∧ (0 ≤ getStereo2MonoMixL (applyMixOps (initEngine sr bs) ops)
        ∧ getStereo2MonoMixL (applyMixOps (initEngine sr bs) ops) ≤ 1)
    ∧ (0 ≤ getStereo2MonoMixR (applyMixOps (initEngine sr bs) ops)
        ∧ getStereo2MonoMixR (applyMixOps (initEngine sr bs) ops) ≤ 1) := by
  have hL : (initEngine sr bs).stereo2MonoMixL = 0.5 := rfl
  have hR : (initEngine sr bs).stereo2MonoMixR = 0.5 := rfl
  have hb := mixOps_bounds ops (initEngine sr bs)
    (by rw [hL]; norm_num) (by rw [hL]; norm_num)
    (by rw [hR]; norm_num) (by rw [hR]; norm_num)
  exact ⟨rfl, rfl, hL, hR, ⟨hb.1, hb.2.1⟩, ⟨hb.2.2.1, hb.2.2.2⟩⟩

/-- The engine after requesting a load of a path whose model construction
fails, once the slot's worker has fully processed the request. -/
noncomputable def failedLoadEngine : EngineState Unit :=
  engineWorkerStep (fun _ => none)
    (engineLoadModelAsync engineW 0 "missing.nam") 0

/-- C1 evaluated at the failing input: after the failed load the slot is
unready and the loader's own path is cleared, but Engine::getModelPath
still returns the requested path, because Engine::loadModelAsync stores it
in the engine-level cache unconditionally and the failure path never
clears that cache. -/
theorem modelLoad_failure_keeps_engine_path :
    engineIsModelReady failedLoadEngine 0 = false
    ∧ loaderGetModelPath (failedLoadEngine.slots 0) = ""
    ∧ engineGetModelPath failedLoadEngine 0 = "missing.nam"
    ∧ "missing.nam" ≠ "" :=
  ⟨rfl, rfl, rfl, by decide⟩

end HoopiPi
